import Mathlib

/-!
Verification of the schema-introspection / result-sanitization layer of the
neo4j-chat plugin (`src/libs/neo4j_graph.py`).

Python values flowing through `value_sanitize` are JSON-like: maps (Python
dicts, which preserve insertion order, embedded as association lists), lists
and scalars (`None`, booleans, integers, strings).  Python's single `None`
value is embedded as `JValue.null`; it is both the null scalar and the
"dropped" marker returned for oversized lists, exactly as in the source.
-/

namespace NeoGraph

/-- `LIST_LIMIT` from `src/libs/neo4j_graph.py`. -/
def LIST_LIMIT : Nat := 128

/-- `DISTINCT_VALUE_LIMIT` from `src/libs/neo4j_graph.py`. -/
def DISTINCT_VALUE_LIMIT : Nat := 10

/-- `EXHAUSTIVE_SEARCH_LIMIT` from `src/libs/neo4j_graph.py`. -/
def EXHAUSTIVE_SEARCH_LIMIT : Nat := 10000

/-- `BASE_ENTITY_LABEL` from `src/libs/neo4j_graph.py`. -/
def BASE_ENTITY_LABEL : String := "__Entity__"

/-- JSON-like Python values handled by `value_sanitize`. -/
inductive JValue where
  | null : JValue
  | bool (b : Bool) : JValue
  | int (n : Int) : JValue
  | str (s : String) : JValue
  | list (xs : List JValue) : JValue
  | dict (kvs : List (String × JValue)) : JValue

/-- `v.isNull` models the Python test `v is None`. -/
def JValue.isNull : JValue → Bool
  | JValue.null => true
  | _ => false

mutual

/-- `value_sanitize` (src/libs/neo4j_graph.py lines 64-107).  Removes lists
with `LIST_LIMIT` or more elements from nested results; Python `None` is
`JValue.null`. -/
def value_sanitize : JValue → JValue
  | JValue.dict kvs => JValue.dict (sanitizeEntries kvs)
  | JValue.list xs =>
      if xs.length < LIST_LIMIT then JValue.list (sanitizeItems xs)
      else JValue.null
  | v => v

/-- The dict branch of `value_sanitize` (lines 80-98): the loop over
`d.items()` building `new_dict`. -/
def sanitizeEntries : List (String × JValue) → List (String × JValue)
  | [] => []
  | (k, v) :: rest =>
    match v with
    | JValue.dict kvs =>
        let sv := value_sanitize (JValue.dict kvs)
        if sv.isNull then sanitizeEntries rest
        else (k, sv) :: sanitizeEntries rest
    | JValue.list xs =>
        if xs.length < LIST_LIMIT then
          let sv := value_sanitize (JValue.list xs)
          if sv.isNull then sanitizeEntries rest
          else (k, sv) :: sanitizeEntries rest
        else sanitizeEntries rest
    | _ => (k, v) :: sanitizeEntries rest

/-- The list comprehension of the list branch (lines 101-103):
`[value_sanitize(item) for item in d if value_sanitize(item) is not None]`. -/
def sanitizeItems : List JValue → List JValue
  | [] => []
  | x :: xs =>
      if (value_sanitize x).isNull then sanitizeItems xs
      else value_sanitize x :: sanitizeItems xs

end

/-- Proof-side characterization: a dict entry with this value survives the
dict branch of `value_sanitize` (it is dropped exactly when the value is a
list of length `≥ LIST_LIMIT`). -/
def keepValue : JValue → Bool
  | JValue.list xs => xs.length < LIST_LIMIT
  | _ => true

/-- Replacement applied by `clean_string_values`: newline and carriage-return
characters become spaces. -/
def cleanChar (c : Char) : Char :=
  if c = '\n' ∨ c = '\r' then ' ' else c

/-- `clean_string_values` (lines 50-61):
`text.replace("\n", " ").replace("\r", " ")`.  Both patterns are single
characters replaced by single characters, so the two chained `str.replace`
calls are exactly a character-wise map over the text. -/
def clean_string_values (text : String) : String :=
  String.mk (text.data.map cleanChar)

/-- One character of CPython's `repr` of a string, given the chosen quote
character: backslash, the quote and control characters are escaped.  (Values
rendered here are 50-character prefixes of property values; this models
`repr` for them.) -/
def pyEscapeChar (q : Char) (c : Char) : String :=
  if c = '\\' then "\\\\"
  else if c = q then "\\" ++ String.singleton q
  else if c = '\n' then "\\n"
  else if c = '\r' then "\\r"
  else if c = '\t' then "\\t"
  else String.singleton c

/-- CPython `repr` of a string: single-quoted unless the string contains a
single quote and no double quote. -/
def pyRepr (s : String) : String :=
  let q : Char :=
    if s.contains (Char.ofNat 39) ∧ ¬ s.contains (Char.ofNat 34)
    then Char.ofNat 34 else Char.ofNat 39
  String.singleton q ++ String.join (s.data.map (pyEscapeChar q)) ++ String.singleton q

/-- CPython `str` of a list of strings, as produced by the f-string
`f"{[clean_string_values(el) for el in prop['values']]}"`. -/
def pyListRepr (l : List String) : String :=
  "[" ++ String.intercalate ", " (l.map pyRepr) ++ "]"

/-- PropertyDescriptor: one `{property, type, ...}` record of
`structured_schema`, with the optional statistics fields the Statistics
Sampler may merge in. -/
structure PropDesc where
  property : String
  type : String
  values : Option (List String) := none
  distinct_count : Option Nat := none
  min : Option String := none
  max : Option String := none
  min_size : Option Nat := none
  max_size : Option Nat := none
deriving DecidableEq

/-- One `{start, type, end}` relationship record (`end` is a Lean keyword,
hence `end_`). -/
structure RelDesc where
  start : String
  type : String
  end_ : String
deriving DecidableEq

/-- The structured schema as consumed by `_format_schema`: Python dicts keep
insertion order and are embedded as association lists. -/
structure Schema where
  node_props : List (String × List PropDesc)
  rel_props : List (String × List PropDesc)
  relationships : List RelDesc
deriving DecidableEq

/-- Python truthiness of `prop.get("values")`: missing key or empty list is
falsy. -/
def optListTruthy (o : Option (List String)) : Bool :=
  match o with
  | none => false
  | some l => ¬ l.isEmpty

/-- Python truthiness of `prop.get("min")` / `prop.get("max")`: missing key
or empty string is falsy. -/
def optStrTruthy (o : Option String) : Bool :=
  match o with
  | none => false
  | some s => ¬ s.isEmpty

/-- Python truthiness of `prop.get("min_size")`: missing key or zero is
falsy. -/
def optNatTruthy (o : Option Nat) : Bool :=
  match o with
  | none => false
  | some n => n ≠ 0

/-- The numeric/temporal property types sharing one formatter branch
(lines 183-189). -/
def numericPropTypes : List String :=
  ["INTEGER", "FLOAT", "DATE", "DATE_TIME", "LOCAL_DATE_TIME"]

/-- The `  - \x60prop\x60: TYPE example` line appended for one property in
enhanced mode (a trailing space remains when `example` is empty, as in the
source f-string). -/
def propLine (prop : PropDesc) (exampleStr : String) : String :=
  "  - `" ++ prop.property ++ "`: " ++ prop.type ++ " " ++ exampleStr

/-- The per-property body of the enhanced formatting loops
(lines 164-207 for nodes and, verbatim identical logic, lines 212-252 for
relationships): `none` models the `continue` that skips LIST properties
treated as embeddings, otherwise the appended line.  `prop["max_size"]` is
modelled as `getD 0`; the sampler always sets `min_size` and `max_size`
together, and the source would raise `KeyError` on a descriptor having only
one of them (the relationship loop likewise reads `prop["values"]` where the
node loop reads `prop.get("values")`, an access that can only differ on
descriptors the pipeline never builds). -/
def enhancedPropLine (prop : PropDesc) : Option String :=
  if prop.type = "STRING" ∧ optListTruthy prop.values then
    let exampleStr :=
      if prop.distinct_count.getD 11 > DISTINCT_VALUE_LIMIT then
        if optListTruthy prop.values then
          "Example: \"" ++ clean_string_values ((prop.values.getD []).headD "") ++ "\""
        else ""
      else
        if optListTruthy prop.values then
          "Available options: " ++ pyListRepr ((prop.values.getD []).map clean_string_values)
        else ""
    some (propLine prop exampleStr)
  else if prop.type ∈ numericPropTypes then
    let exampleStr :=
      if optStrTruthy prop.min ∧ optStrTruthy prop.max then
        "Min: " ++ prop.min.getD "" ++ ", Max: " ++ prop.max.getD ""
      else
        if optListTruthy prop.values then
          "Example: \"" ++ (prop.values.getD []).headD "" ++ "\""
        else ""
    some (propLine prop exampleStr)
  else if prop.type = "LIST" then
    if ¬ optNatTruthy prop.min_size ∨ prop.min_size.getD 0 > LIST_LIMIT then
      none
    else
      some (propLine prop
        ("Min Size: " ++ toString (prop.min_size.getD 0)
          ++ ", Max Size: " ++ toString (prop.max_size.getD 0)))
  else
    some (propLine prop "")

/-- Basic-mode `label \x7bprop: TYPE, ...\x7d` line (lines 255-266). -/
def basicPropsLine (label : String) (props : List PropDesc) : String :=
  label ++ " \x7b"
    ++ String.intercalate ", " (props.map fun p => p.property ++ ": " ++ p.type)
    ++ "\x7d"

/-- `_format_schema` (lines 157-283). -/
def _format_schema (schema : Schema) (is_enhanced : Bool) : String :=
  let formatted_node_props : List String :=
    if is_enhanced then
      schema.node_props.flatMap fun lp =>
        ("- **" ++ lp.1 ++ "**") :: lp.2.filterMap enhancedPropLine
    else
      schema.node_props.map fun lp => basicPropsLine lp.1 lp.2
  let formatted_rel_props : List String :=
    if is_enhanced then
      schema.rel_props.flatMap fun lp =>
        ("- **" ++ lp.1 ++ "**") :: lp.2.filterMap enhancedPropLine
    else
      schema.rel_props.map fun lp => basicPropsLine lp.1 lp.2
  let formatted_rels : List String :=
    schema.relationships.map fun el =>
      "(:" ++ el.start ++ ")-[:" ++ el.type ++ "]->(:" ++ el.end_ ++ ")"
  String.intercalate "\n"
    [ "Node properties:", String.intercalate "\n" formatted_node_props,
      "Relationship properties:", String.intercalate "\n" formatted_rel_props,
      "The relationships:", String.intercalate "\n" formatted_rels ]

/-- Stated from the spec sentence under test in C5 ("all string values
embedded into the rendering have embedded newlines and carriage returns
collapsed"): cleaning every embeddable string value of a descriptor — the
value enumeration and the min/max strings — ahead of formatting.  If the
formatter really cleaned every embedded value, pre-cleaning would not change
its output, since `clean_string_values` is idempotent. -/
def cleanPropValuesAll (p : PropDesc) : PropDesc :=
  { p with
    values := p.values.map fun l => l.map clean_string_values
    min := p.min.map clean_string_values
    max := p.max.map clean_string_values }

/-- `cleanPropValuesAll` applied across a whole schema (spec-side definition
for C5, see `cleanPropValuesAll`). -/
def cleanSchemaValues (s : Schema) : Schema :=
  { s with
    node_props := s.node_props.map fun lp => (lp.1, lp.2.map cleanPropValuesAll)
    rel_props := s.rel_props.map fun lp => (lp.1, lp.2.map cleanPropValuesAll) }

/-- Cleaning only the value enumerations of STRING-typed descriptors — the
strings the formatter does pass through `clean_string_values`. -/
def cleanStringOnlyProp (p : PropDesc) : PropDesc :=
  if p.type = "STRING" then
    { p with values := p.values.map fun l => l.map clean_string_values }
  else p

/-- `cleanStringOnlyProp` applied across a whole schema. -/
def cleanStringOnlySchema (s : Schema) : Schema :=
  { s with
    node_props := s.node_props.map fun lp => (lp.1, lp.2.map cleanStringOnlyProp)
    rel_props := s.rel_props.map fun lp => (lp.1, lp.2.map cleanStringOnlyProp) }

/-- Modelled from the spec: the query engine executing the exhaustive STRING
statistics fragment generated at lines 611-623 is outside src/.  Per the
spec's Statistics Sampler contract, for a STRING property whose observed
distinct (50-character-truncated) values are `vs`, the returned record holds
`values = vs[..DISTINCT_VALUE_LIMIT]` (Cypher list truncation) and
`distinct_count = size(vs)`; `refresh_schema` merges both fields into the
descriptor. -/
def stringPropDescriptor (name : String) (vs : List String) : PropDesc :=
  { property := name
    type := "STRING"
    values := some (vs.take DISTINCT_VALUE_LIMIT)
    distinct_count := some vs.length }

/-- One entry of the `output` map returned by an enhanced statistics query:
the statistics keys merged into a PropertyDescriptor by `prop.update(...)`. -/
structure PropStats where
  values : Option (List String) := none
  distinct_count : Option Nat := none
  min : Option String := none
  max : Option String := none
  min_size : Option Nat := none
  max_size : Option Nat := none
deriving DecidableEq

/-- `prop.update(enhanced_info[prop["property"]])` (lines 561-562, 582-583):
keys present in the stats record overwrite the descriptor's fields, absent
keys leave them unchanged. -/
def applyStats (p : PropDesc) (s : PropStats) : PropDesc :=
  { p with
    values := match s.values with | some v => some v | none => p.values
    distinct_count := match s.distinct_count with | some v => some v | none => p.distinct_count
    min := match s.min with | some v => some v | none => p.min
    max := match s.max with | some v => some v | none => p.max
    min_size := match s.min_size with | some v => some v | none => p.min_size
    max_size := match s.max_size with | some v => some v | none => p.max_size }

/-- Lines 560-562 / 581-583: each descriptor whose property name appears in
`enhanced_info` is updated in place. -/
def updateProps (props : List PropDesc) (info : List (String × PropStats)) :
    List PropDesc :=
  props.map fun p =>
    match info.lookup p.property with
    | some s => applyStats p s
    | none => p

/-- Outcome of one dynamically generated per-label statistics query: a
result record, a `CypherTypeError` (the only exception class the refresh
loops catch), or an exception of any other class. -/
inductive QueryResult where
  | ok (info : List (String × PropStats))
  | cypherTypeError
  | otherError
deriving DecidableEq

/-- The per-label/per-type enhanced-statistics loops of `refresh_schema`
(lines 537-564 for nodes, 565-586 for relationships; both have the same
try/except structure).  Each entry pairs a label (or relationship type)
that survived the upstream exclusion/no-properties skips with its
descriptors; `run` gives the executor's outcome for that label's generated
query.  `except CypherTypeError: continue` leaves that label's descriptors
unpopulated and moves on; an exception of any other class propagates out of
`refresh_schema` and aborts the whole refresh (`.error`). -/
def refreshEnhancedLoop (run : String → QueryResult) :
    List (String × List PropDesc) → Except Unit (List (String × List PropDesc))
  | [] => Except.ok []
  | (label, props) :: rest =>
    match run label with
    | QueryResult.ok info =>
        (refreshEnhancedLoop run rest).map fun r =>
          (label, updateProps props info) :: r
    | QueryResult.cypherTypeError =>
        (refreshEnhancedLoop run rest).map fun r => (label, props) :: r
    | QueryResult.otherError => Except.error ()

/-- Query-outcome map used in the C4 witness: the query for label "A" raises
`CypherTypeError`, every other label's query succeeds. -/
def runW : String → QueryResult :=
  fun l =>
    if l = "A" then QueryResult.cypherTypeError
    else QueryResult.ok [("q", { min := some "1", max := some "2" })]

/-- Accumulator of `_enhanced_schema_cypher`: the shared `with_clauses` and
`return_clauses` lists and the `output_dict` being built. -/
structure CypherAcc where
  with_clauses : List String
  return_clauses : List String
  output_dict : List (String × String)
deriving DecidableEq

/-- Python dict assignment `d[k] = v`: overwrite in place if the key exists
(keys keep first-insertion order), else append. -/
def dictAssign : List (String × String) → String → String → List (String × String)
  | [], k, v => [(k, v)]
  | (k', v') :: rest, k, v =>
      if k' = k then (k', v) :: rest else (k', v') :: dictAssign rest k v

/-- `output_dict[prop_name] = "\x7b" + return_clauses.pop() + "\x7d"`
(lines 656 and 743): Python `list.pop()` removes and returns the last
element and raises `IndexError` on an empty list (`.error ()`). -/
def popAssign (acc : CypherAcc) (prop_name : String) : Except Unit CypherAcc :=
  match acc.return_clauses.getLast? with
  | none => Except.error ()
  | some c =>
      Except.ok { acc with
        return_clauses := acc.return_clauses.dropLast
        output_dict := dictAssign acc.output_dict prop_name ("\x7b" ++ c ++ "\x7d") }

/-- The ten property types handled by the branches of
`_enhanced_schema_cypher`. -/
def handledPropTypes : List String :=
  ["STRING", "INTEGER", "FLOAT", "DATE", "DATE_TIME", "LOCAL_DATE_TIME",
   "LIST", "BOOLEAN", "POINT", "DURATION"]

/-- One iteration of the exhaustive loop of `_enhanced_schema_cypher`
(lines 608-656): each handled branch appends its clauses to the shared
accumulators, `BOOLEAN`/`POINT`/`DURATION` hit `continue`, and every
non-continuing path falls through to the unconditional
`output_dict[prop_name] = "\x7b" + return_clauses.pop() + "\x7d"`. -/
def exhaustStep (acc : CypherAcc) (prop : PropDesc) : Except Unit CypherAcc :=
  let prop_name := prop.property
  if prop.type = "STRING" then
    popAssign { acc with
      with_clauses := acc.with_clauses ++
        ["collect(distinct substring(toString(n.`" ++ prop_name
          ++ "`), 0, 50)) AS `" ++ prop_name ++ "_values`"]
      return_clauses := acc.return_clauses ++
        ["values:`" ++ prop_name ++ "_values`[.." ++ toString DISTINCT_VALUE_LIMIT
          ++ "], distinct_count: size(`" ++ prop_name ++ "_values`)"] } prop_name
  else if prop.type ∈ numericPropTypes then
    popAssign { acc with
      with_clauses := acc.with_clauses ++
        ["min(n.`" ++ prop_name ++ "`) AS `" ++ prop_name ++ "_min`",
         "max(n.`" ++ prop_name ++ "`) AS `" ++ prop_name ++ "_max`",
         "count(distinct n.`" ++ prop_name ++ "`) AS `" ++ prop_name ++ "_distinct`"]
      return_clauses := acc.return_clauses ++
        ["min: toString(`" ++ prop_name ++ "_min`), max: toString(`" ++ prop_name
          ++ "_max`), distinct_count: `" ++ prop_name ++ "_distinct`"] } prop_name
  else if prop.type = "LIST" then
    popAssign { acc with
      with_clauses := acc.with_clauses ++
        ["min(size(n.`" ++ prop_name ++ "`)) AS `" ++ prop_name
          ++ "_size_min`, max(size(n.`" ++ prop_name ++ "`)) AS `"
          ++ prop_name ++ "_size_max`"]
      return_clauses := acc.return_clauses ++
        ["min_size: `" ++ prop_name ++ "_size_min`, max_size: `"
          ++ prop_name ++ "_size_max`"] } prop_name
  else if prop.type ∈ ["BOOLEAN", "POINT", "DURATION"] then
    Except.ok acc
  else
    popAssign acc prop_name

/-- One row of `structured_schema["metadata"]["index"]` consulted by the
sampled branch of `_enhanced_schema_cypher` (lines 665-671). -/
structure IndexEntry where
  label : String
  properties : List String
  type : String
  size : Int
  distinctValues : Int
deriving DecidableEq

/-- One iteration of the sampled loop of `_enhanced_schema_cypher`
(lines 660-743).  `index` stands for
`self.structured_schema["metadata"]["index"]` and `distinctValuesOf` for the
value returned by the `apoc.schema.properties.distinct` sub-query issued by
the indexed-STRING shortcut; both live outside this otherwise pure
function. -/
def sampledStep (index : List IndexEntry)
    (distinctValuesOf : String → String → List String) (label_or_type : String)
    (acc : CypherAcc) (prop : PropDesc) : Except Unit CypherAcc :=
  let prop_name := prop.property
  let prop_index := index.filter fun el =>
    el.label = label_or_type ∧ el.properties = [prop_name] ∧ el.type = "RANGE"
  if prop.type = "STRING" then
    let collectAcc : CypherAcc := { acc with
      with_clauses := acc.with_clauses ++
        ["collect(distinct substring(toString(n.`" ++ prop_name
          ++ "`), 0, 50)) AS `" ++ prop_name ++ "_values`"]
      return_clauses := acc.return_clauses ++
        ["values: `" ++ prop_name ++ "_values`"] }
    match prop_index with
    | e :: _ =>
        if 0 < e.size ∧ e.distinctValues ≤ (DISTINCT_VALUE_LIMIT : Int) then
          let distinct_values := distinctValuesOf label_or_type prop_name
          popAssign { acc with
            return_clauses := acc.return_clauses ++
              ["values: " ++ pyListRepr distinct_values ++ ", distinct_count: "
                ++ toString distinct_values.length] } prop_name
        else popAssign collectAcc prop_name
    | [] => popAssign collectAcc prop_name
  else if prop.type ∈ numericPropTypes then
    match prop_index with
    | [] =>
        popAssign { acc with
          with_clauses := acc.with_clauses ++
            ["collect(distinct toString(n.`" ++ prop_name ++ "`)) AS `"
              ++ prop_name ++ "_values`"]
          return_clauses := acc.return_clauses ++
            ["values: `" ++ prop_name ++ "_values`"] } prop_name
    | _ :: _ =>
        popAssign { acc with
          with_clauses := acc.with_clauses ++
            ["min(n.`" ++ prop_name ++ "`) AS `" ++ prop_name ++ "_min`",
             "max(n.`" ++ prop_name ++ "`) AS `" ++ prop_name ++ "_max`",
             "count(distinct n.`" ++ prop_name ++ "`) AS `" ++ prop_name ++ "_distinct`"]
          return_clauses := acc.return_clauses ++
            ["min: toString(`" ++ prop_name ++ "_min`), max: toString(`" ++ prop_name
              ++ "_max`), distinct_count: `" ++ prop_name ++ "_distinct`"] } prop_name
  else if prop.type = "LIST" then
    popAssign { acc with
      with_clauses := acc.with_clauses ++
        ["min(size(n.`" ++ prop_name ++ "`)) AS `" ++ prop_name
          ++ "_size_min`, max(size(n.`" ++ prop_name ++ "`)) AS `"
          ++ prop_name ++ "_size_max`"]
      return_clauses := acc.return_clauses ++
        ["min_size: `" ++ prop_name ++ "_size_min`, max_size: `"
          ++ prop_name ++ "_size_max`"] } prop_name
  else if prop.type ∈ ["BOOLEAN", "POINT", "DURATION"] then
    Except.ok acc
  else
    popAssign acc prop_name

/-- `_enhanced_schema_cypher` (lines 592-754), with the object state it
reads made explicit (see `sampledStep`).  Returns the generated Cypher text,
or `.error ()` for the `IndexError` raised by `return_clauses.pop()` on an
empty accumulator. -/
def _enhanced_schema_cypher (index : List IndexEntry)
    (distinctValuesOf : String → String → List String)
    (label_or_type : String) (properties : List PropDesc)
    (exhaustive : Bool) (is_relationship : Bool) : Except Unit String := do
  let match_clause :=
    if is_relationship then "MATCH ()-[n:`" ++ label_or_type ++ "`]->()"
    else "MATCH (n:`" ++ label_or_type ++ "`)"
  let match_clause :=
    if exhaustive then match_clause else match_clause ++ " WITH n LIMIT 5"
  let init : CypherAcc :=
    { with_clauses := [], return_clauses := [], output_dict := [] }
  let acc ←
    if exhaustive then properties.foldlM exhaustStep init
    else properties.foldlM (sampledStep index distinctValuesOf label_or_type) init
  let with_clause := "WITH " ++ String.intercalate ",\n     " acc.with_clauses
  let return_clause := "RETURN \x7b"
    ++ String.intercalate ", "
        (acc.output_dict.map fun kv => "`" ++ kv.1 ++ "`: " ++ kv.2)
    ++ "\x7d AS output"
  return String.intercalate "\n" [match_clause, with_clause, return_clause]

/-- `include_docs_query` (lines 42-47). -/
def include_docs_query : String :=
  "MERGE (d:Document \x7bid:$document.metadata.id\x7d) "
    ++ "SET d.text = $document.page_content "
    ++ "SET d += $document.metadata "
    ++ "WITH d "

/-- `_get_node_import_query` (lines 110-130). -/
def _get_node_import_query (baseEntityLabel include_source : Bool) : String :=
  if baseEntityLabel then
    (if include_source then include_docs_query else "")
      ++ "UNWIND $data AS row "
      ++ "MERGE (source:`" ++ BASE_ENTITY_LABEL ++ "` \x7bid: row.id\x7d) "
      ++ "SET source += row.properties "
      ++ (if include_source then "MERGE (d)-[:MENTIONS]->(source) " else "")
      ++ "WITH source, row "
      ++ "CALL apoc.create.addLabels( source, [row.type] ) YIELD node "
      ++ "RETURN distinct \x27done\x27 AS result"
  else
    (if include_source then include_docs_query else "")
      ++ "UNWIND $data AS row "
      ++ "CALL apoc.merge.node([row.type], \x7bid: row.id\x7d, "
      ++ "row.properties, \x7b\x7d) YIELD node "
      ++ (if include_source then "MERGE (d)-[:MENTIONS]->(node) " else "")
      ++ "RETURN distinct \x27done\x27 AS result"

/-- `_get_rel_import_query` (lines 133-154). -/
def _get_rel_import_query (baseEntityLabel : Bool) : String :=
  if baseEntityLabel then
    "UNWIND $data AS row "
      ++ "MERGE (source:`" ++ BASE_ENTITY_LABEL ++ "` \x7bid: row.source\x7d) "
      ++ "MERGE (target:`" ++ BASE_ENTITY_LABEL ++ "` \x7bid: row.target\x7d) "
      ++ "WITH source, target, row "
      ++ "CALL apoc.merge.relationship(source, row.type, "
      ++ "\x7b\x7d, row.properties, target) YIELD rel "
      ++ "RETURN distinct \x27done\x27"
  else
    "UNWIND $data AS row "
      ++ "CALL apoc.merge.node([row.source_label], \x7bid: row.source\x7d,"
      ++ "\x7b\x7d, \x7b\x7d) YIELD node as source "
      ++ "CALL apoc.merge.node([row.target_label], \x7bid: row.target\x7d,"
      ++ "\x7b\x7d, \x7b\x7d) YIELD node as target "
      ++ "CALL apoc.merge.relationship(source, row.type, "
      ++ "\x7b\x7d, row.properties, target) YIELD rel "
      ++ "RETURN distinct \x27done\x27"

/-- `charsStartWith pat text`: `pat` is an initial segment of `text`. -/
def charsStartWith : List Char → List Char → Bool
  | [], _ => true
  | _ :: _, [] => false
  | p :: ps, c :: cs => p = c && charsStartWith ps cs

/-- `pat` occurs as a contiguous run of `text`. -/
def charsContain (pat : List Char) : List Char → Bool
  | [] => charsStartWith pat []
  | c :: cs => charsStartWith pat (c :: cs) || charsContain pat cs

/-- `pat` occurs as a substring of `s`. -/
def containsSub (s pat : String) : Bool := charsContain pat.data s.data

/-- A Cypher property map: keys to values. -/
def Props := String → Option String

/-- Modelled from the spec: Cypher/APOC property-map overwrite (`SET n += m`
and the apoc merge property arguments) — keys present in `kvs` overwrite the
existing map, later occurrences winning as in sequential `SET`.  The query
engine executing the generated text is outside src/. -/
def override (p : Props) (kvs : List (String × String)) : Props :=
  fun k =>
    match kvs.reverse.lookup k with
    | some v => some v
    | none => p k

/-- The property map holding exactly the given pairs. -/
def propsOfList (l : List (String × String)) : Props :=
  override (fun _ => none) l

/-- Modelled from the spec: the effect of one generated merge clause on a
single node or relationship record.  `setProps init kvs` is
create-or-match followed by an unconditional `SET += kvs` (`MERGE ... SET`),
the record being created as `init` first when absent; `mergeCreate init kvs`
sets `kvs` only on creation (`apoc.merge.*` called with `\x7b\x7d` as its
on-match properties) and leaves a matched record unchanged. -/
inductive MergeOp where
  | setProps (init : List (String × String)) (kvs : List (String × String))
  | mergeCreate (init : List (String × String)) (kvs : List (String × String))

/-- Applying one merge clause to the (possibly absent) record it targets. -/
def evalOp : MergeOp → Option Props → Option Props
  | MergeOp.setProps init kvs, c => some (override (c.getD (propsOfList init)) kvs)
  | MergeOp.mergeCreate init kvs, c =>
      match c with
      | some v => some v
      | none => some (override (propsOfList init) kvs)

/-- Applying a sequence of merge clauses targeting the same record. -/
def evalChain : List MergeOp → Option Props → Option Props
  | [], c => c
  | op :: ops, c => evalChain ops (evalOp op c)

/-- The concatenation of all property maps a chain writes unconditionally. -/
def chainKVs : List MergeOp → List (String × String)
  | [] => []
  | MergeOp.setProps _ kvs :: ops => kvs ++ chainKVs ops
  | MergeOp.mergeCreate _ _ :: ops => chainKVs ops

/-- Modelled from the spec: the graph the generated import queries act on.
Nodes are keyed by (primary label, id) — the generated merge patterns match
on exactly those — with a property map and the set of extra labels added by
`apoc.create.addLabels`; relationships are keyed by
(start key, type, end key), which is the `apoc.merge.relationship`
identification since its ident-props argument is always `\x7b\x7d`. -/
structure GraphState where
  node : String × String → Option Props
  extraLabels : String × String → String → Bool
  rel : (String × String) × String × (String × String) → Option Props

/-- One row of the `$data` parameter of the node import query. -/
structure NodeRow where
  id : String
  type : String
  properties : List (String × String)

/-- One row of the `$data` parameter of the relationship import query. -/
structure RelRow where
  source : String
  source_label : String
  target : String
  target_label : String
  type : String
  properties : List (String × String)

/-- The `$document` parameter of `include_docs_query`. -/
structure DocRow where
  id : String
  page_content : String
  metadata : List (String × String)

/-- The node key the node import query merges on: the fixed supertype label
plus id when `baseEntityLabel`, the row's own label plus id otherwise. -/
def nodeKey (baseEntityLabel : Bool) (r : NodeRow) : String × String :=
  if baseEntityLabel then (BASE_ENTITY_LABEL, r.id) else (r.type, r.id)

/-- The merge clause the node import applies per row:
`MERGE ... SET source += row.properties` when `baseEntityLabel`, and
`apoc.merge.node([row.type], \x7bid: row.id\x7d, row.properties, \x7b\x7d)`
(on-create props only) otherwise. -/
def nodeRowOp (baseEntityLabel : Bool) (r : NodeRow) : MergeOp :=
  if baseEntityLabel then MergeOp.setProps [("id", r.id)] r.properties
  else MergeOp.mergeCreate [("id", r.id)] r.properties

/-- The key of the document node of `include_docs_query`. -/
def docKey (doc : DocRow) : String × String := ("Document", doc.id)

/-- The clause of `include_docs_query`: merge the document node, set its
text, then `+=` its metadata. -/
def docOp (doc : DocRow) : MergeOp :=
  MergeOp.setProps [("id", doc.id)] (("text", doc.page_content) :: doc.metadata)

/-- The effect of one `UNWIND` iteration of the node import query. -/
def applyNodeRow (bel incl : Bool) (dkey : String × String) (r : NodeRow)
    (st : GraphState) : GraphState :=
  let key := nodeKey bel r
  { node := fun x => if x = key then evalOp (nodeRowOp bel r) (st.node x) else st.node x
    extraLabels := fun x l =>
      if bel ∧ x = key then (if l = r.type then true else st.extraLabels x l)
      else st.extraLabels x l
    rel := fun rk =>
      if incl ∧ rk = (dkey, "MENTIONS", key)
      then evalOp (MergeOp.mergeCreate [] []) (st.rel rk)
      else st.rel rk }

/-- The effect of `include_docs_query` before the `UNWIND`. -/
def mergeDoc (doc : DocRow) (st : GraphState) : GraphState :=
  { st with
    node := fun x =>
      if x = docKey doc then evalOp (docOp doc) (st.node x) else st.node x }

/-- Modelled from the spec: executing `_get_node_import_query bel incl`
with parameters `doc` and `rows` against a graph state. -/
def applyNodeImport (bel incl : Bool) (doc : DocRow) (rows : List NodeRow)
    (st : GraphState) : GraphState :=
  rows.foldl (fun s r => applyNodeRow bel incl (docKey doc) r s)
    (if incl then mergeDoc doc st else st)

/-- The endpoint node keys the relationship import merges per row. -/
def relEndpointKeys (bel : Bool) (r : RelRow) :
    (String × String) × (String × String) :=
  if bel then ((BASE_ENTITY_LABEL, r.source), (BASE_ENTITY_LABEL, r.target))
  else ((r.source_label, r.source), (r.target_label, r.target))

/-- The effect of one `UNWIND` iteration of the relationship import query:
merge both endpoints (no property writes beyond the id), then
`apoc.merge.relationship(source, row.type, \x7b\x7d, row.properties, target)`
— properties set on creation only. -/
def applyRelRow (bel : Bool) (r : RelRow) (st : GraphState) : GraphState :=
  let sk := (relEndpointKeys bel r).1
  let tk := (relEndpointKeys bel r).2
  let st1 : GraphState := { st with
    node := fun x =>
      if x = sk then evalOp (MergeOp.mergeCreate [("id", r.source)] []) (st.node x)
      else st.node x }
  let st2 : GraphState := { st1 with
    node := fun x =>
      if x = tk then evalOp (MergeOp.mergeCreate [("id", r.target)] []) (st1.node x)
      else st1.node x }
  { st2 with
    rel := fun rk =>
      if rk = (sk, r.type, tk)
      then evalOp (MergeOp.mergeCreate [] r.properties) (st2.rel rk)
      else st2.rel rk }

/-- Modelled from the spec: executing `_get_rel_import_query bel` with
parameter `rows` against a graph state. -/
def applyRelImport (bel : Bool) (rows : List RelRow) (st : GraphState) :
    GraphState :=
  rows.foldl (fun s r => applyRelRow bel r s) st

/-- The merge clauses the node import applies, in order, to the node record
at key `x`. -/
def nodeOpsOf (bel incl : Bool) (doc : DocRow) (rows : List NodeRow)
    (x : String × String) : List MergeOp :=
  (if incl ∧ x = docKey doc then [docOp doc] else [])
    ++ rows.filterMap fun r =>
        if x = nodeKey bel r then some (nodeRowOp bel r) else none

/-- The labels the node import adds to the node at key `x`. -/
def labelsAddedOf (bel : Bool) (rows : List NodeRow) (x : String × String) :
    List String :=
  if bel then
    rows.filterMap fun r => if x = nodeKey bel r then some r.type else none
  else []

/-- The `MENTIONS` merges the node import applies to the relationship record
at key `rk`. -/
def mentionsOpsOf (bel incl : Bool) (dkey : String × String)
    (rows : List NodeRow)
    (rk : (String × String) × String × (String × String)) : List MergeOp :=
  rows.filterMap fun r =>
    if incl ∧ rk = (dkey, "MENTIONS", nodeKey bel r)
    then some (MergeOp.mergeCreate [] []) else none

/-- The merge clauses the relationship import applies, in order, to the node
record at key `x`. -/
def relNodeOpsOf (bel : Bool) (rows : List RelRow) (x : String × String) :
    List MergeOp :=
  rows.flatMap fun r =>
    (if x = (relEndpointKeys bel r).1
      then [MergeOp.mergeCreate [("id", r.source)] []] else [])
      ++ (if x = (relEndpointKeys bel r).2
          then [MergeOp.mergeCreate [("id", r.target)] []] else [])

/-- The merge clauses the relationship import applies to the relationship
record at key `rk`. -/
def relRelOpsOf (bel : Bool) (rows : List RelRow)
    (rk : (String × String) × String × (String × String)) : List MergeOp :=
  rows.filterMap fun r =>
    if rk = ((relEndpointKeys bel r).1, r.type, (relEndpointKeys bel r).2)
    then some (MergeOp.mergeCreate [] r.properties) else none

theorem sanitizeItems_length_le (xs : List JValue) :
    (sanitizeItems xs).length ≤ xs.length := by
  induction xs with
  | nil => simp [sanitizeItems]
  | cons x xs ih =>
      rw [sanitizeItems]
      split
      · exact Nat.le_succ_of_le ih
      · simpa using ih

theorem sanitize_dict_not_null (kvs : List (String × JValue)) :
    (value_sanitize (JValue.dict kvs)).isNull = false := by
  rw [value_sanitize]; rfl

theorem sanitize_shortlist_not_null (xs : List JValue) (h : xs.length < LIST_LIMIT) :
    (value_sanitize (JValue.list xs)).isNull = false := by
  rw [value_sanitize, if_pos h]; rfl

theorem sanitizeEntries_cons (k : String) (v : JValue) (rest : List (String × JValue)) :
    sanitizeEntries ((k, v) :: rest) =
      if keepValue v then (k, value_sanitize v) :: sanitizeEntries rest
      else sanitizeEntries rest := by
  cases v with
  | null => rfl
  | bool b => rfl
  | int n => rfl
  | str s => rfl
  | dict kvs =>
      rw [sanitizeEntries]
      simp [keepValue, sanitize_dict_not_null]
  | list xs =>
      rw [sanitizeEntries]
      by_cases h : xs.length < LIST_LIMIT
      · simp [keepValue, h, sanitize_shortlist_not_null xs h]
      · simp [keepValue, h]

theorem keepValue_sanitize (v : JValue) (h : keepValue v = true) :
    keepValue (value_sanitize v) = true := by
  cases v with
  | null => rfl
  | bool b => rfl
  | int n => rfl
  | str s => rfl
  | dict kvs => rw [value_sanitize]; rfl
  | list xs =>
      rw [keepValue] at h
      rw [value_sanitize, if_pos (by simpa using h), keepValue]
      simpa using Nat.lt_of_le_of_lt (sanitizeItems_length_le xs) (by simpa using h)

theorem keepValue_iff (v : JValue) :
    keepValue v = true ↔ ((value_sanitize v).isNull = false ∨ v = JValue.null) := by
  cases v with
  | null => simp [keepValue, value_sanitize]
  | bool b => simp [keepValue, value_sanitize, JValue.isNull]
  | int n => simp [keepValue, value_sanitize, JValue.isNull]
  | str s => simp [keepValue, value_sanitize, JValue.isNull]
  | dict kvs => simp [keepValue, sanitize_dict_not_null]
  | list xs =>
      by_cases h : xs.length < LIST_LIMIT
      · simp [keepValue, h, sanitize_shortlist_not_null xs h]
      · rw [keepValue, value_sanitize, if_neg h]
        simp [h, JValue.isNull]

theorem mem_sanitizeEntries_of_mem {kvs : List (String × JValue)} {k : String}
    {v : JValue} (hm : (k, v) ∈ kvs) (hk : keepValue v = true) :
    (k, value_sanitize v) ∈ sanitizeEntries kvs := by
  induction kvs with
  | nil => cases hm
  | cons kv rest ih =>
      obtain ⟨k', v'⟩ := kv
      rw [sanitizeEntries_cons]
      rcases List.mem_cons.mp hm with h | h
      · obtain ⟨hk', hv'⟩ := Prod.mk.injEq .. ▸ h
        subst hk'; subst hv'
        rw [if_pos hk]
        exact List.mem_cons_self _ _
      · split
        · exact List.mem_cons_of_mem _ (ih h)
        · exact ih h

mutual

theorem sanitize_idem_val (v : JValue) :
    value_sanitize (value_sanitize v) = value_sanitize v := by
  match v with
  | JValue.null => rfl
  | JValue.bool b => rfl
  | JValue.int n => rfl
  | JValue.str s => rfl
  | JValue.dict kvs =>
      rw [value_sanitize, value_sanitize, sanitize_idem_entries kvs]
  | JValue.list xs =>
      by_cases h : xs.length < LIST_LIMIT
      · rw [value_sanitize, if_pos h, value_sanitize,
          if_pos (Nat.lt_of_le_of_lt (sanitizeItems_length_le xs) h),
          sanitize_idem_items xs]
      · rw [value_sanitize, if_neg h]; rfl

theorem sanitize_idem_entries (kvs : List (String × JValue)) :
    sanitizeEntries (sanitizeEntries kvs) = sanitizeEntries kvs := by
  match kvs with
  | [] => rfl
  | (k, v) :: rest =>
      rw [sanitizeEntries_cons]
      by_cases hk : keepValue v
      · rw [if_pos hk, sanitizeEntries_cons, if_pos (keepValue_sanitize v hk),
          sanitize_idem_val v, sanitize_idem_entries rest]
      · rw [if_neg hk, sanitize_idem_entries rest]

theorem sanitize_idem_items (xs : List JValue) :
    sanitizeItems (sanitizeItems xs) = sanitizeItems xs := by
  match xs with
  | [] => rfl
  | x :: rest =>
      rw [sanitizeItems]
      by_cases h : (value_sanitize x).isNull
      · rw [if_pos h, sanitize_idem_items rest]
      · rw [if_neg h, sanitizeItems, sanitize_idem_val x, if_neg h,
          sanitize_idem_items rest]

end

/-- C1, counterexample: the claim "a key is present in `value_sanitize(M)` iff
the recursive sanitization of `M`'s value at that key is non-null" fails at
`M = {"k": None}`: the null scalar is kept verbatim by the scalar branch of the
dict loop although its sanitization is null. -/
theorem sanitize_map_key_iff_cex :
    ¬ ((∃ v', ("k", v') ∈ sanitizeEntries [("k", JValue.null)]) ↔
        (value_sanitize JValue.null).isNull = false) := by
  intro h
  have hmem : ∃ v', ("k", v') ∈ sanitizeEntries [("k", JValue.null)] :=
    ⟨JValue.null, by simp [sanitizeEntries]⟩
  have := h.mp hmem
  simp [value_sanitize, JValue.isNull] at this

/-- C1, amended: a key is present in `value_sanitize(M)` iff `M` holds an
entry for it whose value either sanitizes to a non-null result or is itself
the null scalar (null-valued entries pass through the scalar branch
unchanged). -/
theorem sanitize_map_key_iff_amended (kvs : List (String × JValue)) (k : String) :
    (∃ v', (k, v') ∈ sanitizeEntries kvs) ↔
      ∃ v, (k, v) ∈ kvs ∧ ((value_sanitize v).isNull = false ∨ v = JValue.null) := by
  induction kvs with
  | nil => simp [sanitizeEntries]
  | cons kv rest ih =>
      obtain ⟨k', v'⟩ := kv
      rw [sanitizeEntries_cons]
      by_cases hk : keepValue v'
      · rw [if_pos hk]
        constructor
        · rintro ⟨w, hw⟩
          rcases List.mem_cons.mp hw with h | h
          · obtain ⟨hk', hv'⟩ := Prod.mk.injEq .. ▸ h
            exact ⟨v', by simp [hk'.symm], (keepValue_iff v').mp hk⟩
          · obtain ⟨v, hv, hcond⟩ := ih.mp ⟨w, h⟩
            exact ⟨v, List.mem_cons_of_mem _ hv, hcond⟩
        · rintro ⟨v, hv, hcond⟩
          rcases List.mem_cons.mp hv with h | h
          · obtain ⟨hk', hv'⟩ := Prod.mk.injEq .. ▸ h
            subst hk'; subst hv'
            exact ⟨value_sanitize v, List.mem_cons_self _ _⟩
          · obtain ⟨w, hw⟩ := ih.mpr ⟨v, h, hcond⟩
            exact ⟨w, List.mem_cons_of_mem _ hw⟩
      · rw [if_neg hk]
        rw [ih]
        constructor
        · rintro ⟨v, hv, hcond⟩
          exact ⟨v, List.mem_cons_of_mem _ hv, hcond⟩
        · rintro ⟨v, hv, hcond⟩
          rcases List.mem_cons.mp hv with h | h
          · obtain ⟨hk', hv'⟩ := Prod.mk.injEq .. ▸ h
            subst hk'; subst hv'
            exact absurd ((keepValue_iff v).mpr hcond) (by simpa using hk)
          · exact ⟨v, h, hcond⟩

/-- C2: `value_sanitize` maps a list to null exactly when its length is at
least `LIST_LIMIT`; a strictly shorter list is kept as a list whose elements
are recursively sanitized with null results dropped; and inside a dict, an
entry holding a list of length `≥ LIST_LIMIT` is dropped from the result. -/
theorem sanitize_list_limit_boundary :
    (∀ xs : List JValue,
        value_sanitize (JValue.list xs) = JValue.null ↔ LIST_LIMIT ≤ xs.length)
    ∧ (∀ xs : List JValue, xs.length < LIST_LIMIT →
        value_sanitize (JValue.list xs) = JValue.list (sanitizeItems xs))
    ∧ (∀ (k : String) (xs : List JValue) (rest : List (String × JValue)),
        LIST_LIMIT ≤ xs.length →
        sanitizeEntries ((k, JValue.list xs) :: rest) = sanitizeEntries rest) := by
  refine ⟨fun xs => ?_, fun xs h => ?_, fun k xs rest h => ?_⟩
  · by_cases h : xs.length < LIST_LIMIT
    · rw [value_sanitize, if_pos h]
      simp
      omega
    · rw [value_sanitize, if_neg h]
      simp
      omega
  · rw [value_sanitize, if_pos h]
  · rw [sanitizeEntries_cons, if_neg (by simp [keepValue]; omega)]

/-- C2, witness: a list of length exactly `LIST_LIMIT` is dropped (sanitized
to null) while a list of length `LIST_LIMIT - 1` is kept, with its null
elements removed. -/
theorem sanitize_list_limit_boundary_witness :
    (LIST_LIMIT ≤ (List.replicate 128 JValue.null).length
      ∧ value_sanitize (JValue.list (List.replicate 128 JValue.null)) = JValue.null)
    ∧ ((List.replicate 127 JValue.null).length < LIST_LIMIT
      ∧ value_sanitize (JValue.list (List.replicate 127 JValue.null)) =
          JValue.list (sanitizeItems (List.replicate 127 JValue.null))) :=
  ⟨⟨by simp [LIST_LIMIT],
    (sanitize_list_limit_boundary.1 _).mpr (by simp [LIST_LIMIT])⟩,
   ⟨by simp [LIST_LIMIT],
    sanitize_list_limit_boundary.2.1 _ (by simp [LIST_LIMIT])⟩⟩

/-- C3: `value_sanitize` is idempotent on every JSON-like nested structure of
maps, lists and scalars. -/
theorem value_sanitize_idempotent (v : JValue) :
    value_sanitize (value_sanitize v) = value_sanitize v :=
  sanitize_idem_val v

/-- C10: sanitizing a map always yields a map (never null), a map-valued
entry is never dropped from its parent, an entry can only disappear when its
value is a list of length `≥ LIST_LIMIT`, and scalars — including null — pass
through `value_sanitize` unchanged. -/
theorem value_sanitize_dict_invariants :
    (∀ kvs : List (String × JValue), ∃ kvs',
        value_sanitize (JValue.dict kvs) = JValue.dict kvs')
    ∧ (∀ (kvs : List (String × JValue)) (k : String) (sub : List (String × JValue)),
        (k, JValue.dict sub) ∈ kvs →
        (k, value_sanitize (JValue.dict sub)) ∈ sanitizeEntries kvs)
    ∧ (∀ (kvs : List (String × JValue)) (k : String) (v : JValue),
        (k, v) ∈ kvs → (∀ v', (k, v') ∉ sanitizeEntries kvs) →
        ∃ xs, v = JValue.list xs ∧ LIST_LIMIT ≤ xs.length)
    ∧ value_sanitize JValue.null = JValue.null
    ∧ (∀ b, value_sanitize (JValue.bool b) = JValue.bool b)
    ∧ (∀ n, value_sanitize (JValue.int n) = JValue.int n)
    ∧ (∀ s, value_sanitize (JValue.str s) = JValue.str s) := by
  refine ⟨fun kvs => ⟨sanitizeEntries kvs, by rw [value_sanitize]⟩,
    fun kvs k sub hm => mem_sanitizeEntries_of_mem hm rfl,
    fun kvs k v hm hnone => ?_, rfl, fun b => rfl, fun n => rfl, fun s => rfl⟩
  by_cases hk : keepValue v
  · exact absurd (mem_sanitizeEntries_of_mem hm hk) (hnone _)
  · cases v with
    | list xs =>
        refine ⟨xs, rfl, ?_⟩
        rw [keepValue] at hk
        simpa using hk
    | null => exact absurd rfl hk
    | bool b => exact absurd rfl hk
    | int n => exact absurd rfl hk
    | str s => exact absurd rfl hk
    | dict kvs' => exact absurd rfl hk

theorem cleanChar_idem (c : Char) : cleanChar (cleanChar c) = cleanChar c := by
  by_cases h : c = '\n' ∨ c = '\r' <;> simp [cleanChar, h]

theorem clean_string_values_idem (s : String) :
    clean_string_values (clean_string_values s) = clean_string_values s := by
  simp only [clean_string_values, List.map_map]
  exact congrArg String.mk (by simp [Function.comp_def, cleanChar_idem])

theorem cleanStringOnlyProp_property (p : PropDesc) :
    (cleanStringOnlyProp p).property = p.property := by
  rw [cleanStringOnlyProp]; split <;> rfl

theorem cleanStringOnlyProp_type (p : PropDesc) :
    (cleanStringOnlyProp p).type = p.type := by
  rw [cleanStringOnlyProp]; split <;> rfl

theorem enhancedPropLine_cleanStringOnly (p : PropDesc) :
    enhancedPropLine (cleanStringOnlyProp p) = enhancedPropLine p := by
  by_cases ht : p.type = "STRING"
  · rcases p with ⟨pp, pt, pv, pd, pmin, pmax, pms, pMs⟩
    simp only at ht
    subst ht
    cases pv with
    | none => simp [cleanStringOnlyProp]
    | some l =>
        cases l with
        | nil => simp [cleanStringOnlyProp, enhancedPropLine, optListTruthy]
        | cons a t =>
            simp [cleanStringOnlyProp, enhancedPropLine, optListTruthy, propLine,
              clean_string_values_idem, pyListRepr, List.map_map, Function.comp_def]
  · rw [cleanStringOnlyProp, if_neg ht]

theorem filterMap_enhanced_clean (props : List PropDesc) :
    (props.map cleanStringOnlyProp).filterMap enhancedPropLine
      = props.filterMap enhancedPropLine := by
  simp [List.filterMap_map, Function.comp_def, enhancedPropLine_cleanStringOnly]

theorem basicPropsLine_clean (label : String) (props : List PropDesc) :
    basicPropsLine label (props.map cleanStringOnlyProp) = basicPropsLine label props := by
  simp [basicPropsLine, List.map_map, Function.comp_def, cleanStringOnlyProp_property,
    cleanStringOnlyProp_type]

theorem flatMap_enhanced_clean (nps : List (String × List PropDesc)) :
    (nps.map fun lp => (lp.1, lp.2.map cleanStringOnlyProp)).flatMap
        (fun lp => ("- **" ++ lp.1 ++ "**") :: lp.2.filterMap enhancedPropLine)
      = nps.flatMap
        (fun lp => ("- **" ++ lp.1 ++ "**") :: lp.2.filterMap enhancedPropLine) := by
  induction nps with
  | nil => rfl
  | cons lp rest ih =>
      simp [List.filterMap_map, Function.comp_def, enhancedPropLine_cleanStringOnly, ih]

theorem map_basic_clean (nps : List (String × List PropDesc)) :
    (nps.map fun lp => (lp.1, lp.2.map cleanStringOnlyProp)).map
        (fun lp => basicPropsLine lp.1 lp.2)
      = nps.map (fun lp => basicPropsLine lp.1 lp.2) := by
  simp [List.map_map, Function.comp_def, basicPropsLine_clean, cleanStringOnlyProp_property,
    cleanStringOnlyProp_type]

/-- C5, counterexample: the claim "every string value embedded into the
rendering has its newlines and carriage returns collapsed" fails — a numeric
property's example value is embedded verbatim.  Were every embedded value
cleaned, pre-cleaning all descriptor values would not change the output
(cleaning is idempotent); on this schema it does. -/
theorem format_clean_all_values_cex :
    _format_schema
        (cleanSchemaValues
          { node_props := [("A", [{ property := "p", type := "INTEGER",
                                    values := some ["1\n2"] }])],
            rel_props := [], relationships := [] }) true
      ≠ _format_schema
        { node_props := [("A", [{ property := "p", type := "INTEGER",
                                  values := some ["1\n2"] }])],
          rel_props := [], relationships := [] } true := by
  decide

/-- C5, amended: only the value enumerations and examples of STRING-typed
properties are passed through `clean_string_values`; numeric min/max and
example values, property names, labels and relationship fields are embedded
verbatim.  Formally: pre-cleaning exactly the STRING-typed descriptors'
values never changes the formatted output, in either mode. -/
theorem format_cleans_string_values (s : Schema) (e : Bool) :
    _format_schema (cleanStringOnlySchema s) e = _format_schema s e := by
  cases e with
  | false =>
      simp [_format_schema, cleanStringOnlySchema, List.map_map, Function.comp_def,
        basicPropsLine_clean]
  | true =>
      simp [_format_schema, cleanStringOnlySchema, flatMap_enhanced_clean]

/-- C6: for a STRING property whose observed distinct values are `vs`, the
enhanced pipeline (exhaustive statistics query plus formatter) renders a
single example and records only the distinct count once
`|vs| = DISTINCT_VALUE_LIMIT + 1` — the descriptor itself retains strictly
fewer than `|vs|` values — and renders the full enumeration (with the
distinct count in the descriptor) when `1 ≤ |vs| ≤ DISTINCT_VALUE_LIMIT`. -/
theorem string_stats_distinct_limit (name : String) (vs : List String) :
    (vs.length = DISTINCT_VALUE_LIMIT + 1 →
      enhancedPropLine (stringPropDescriptor name vs) =
        some (propLine (stringPropDescriptor name vs)
          ("Example: \"" ++ clean_string_values (vs.headD "") ++ "\""))
      ∧ (stringPropDescriptor name vs).distinct_count = some vs.length
      ∧ ((stringPropDescriptor name vs).values.getD []).length < vs.length)
    ∧ (1 ≤ vs.length → vs.length ≤ DISTINCT_VALUE_LIMIT →
      enhancedPropLine (stringPropDescriptor name vs) =
        some (propLine (stringPropDescriptor name vs)
          ("Available options: " ++ pyListRepr (vs.map clean_string_values)))
      ∧ (stringPropDescriptor name vs).distinct_count = some vs.length) := by
  constructor
  · intro h
    cases vs with
    | nil => simp [DISTINCT_VALUE_LIMIT] at h
    | cons a t =>
        refine ⟨?_, rfl, ?_⟩
        · simp only [enhancedPropLine, stringPropDescriptor]
          rw [if_pos ?_]
          · rw [if_pos (by simp [h, DISTINCT_VALUE_LIMIT])]
            rw [if_pos ?_]
            · simp [DISTINCT_VALUE_LIMIT, List.take_succ_cons]
            · simp [optListTruthy, DISTINCT_VALUE_LIMIT, List.take_succ_cons]
          · simp [optListTruthy, DISTINCT_VALUE_LIMIT, List.take_succ_cons]
        · have hlen : (List.take DISTINCT_VALUE_LIMIT (a :: t)).length = DISTINCT_VALUE_LIMIT := by
            rw [List.length_take]
            omega
          simp only [stringPropDescriptor, Option.getD_some]
          rw [hlen]
          omega
  · intro h1 h2
    have htake : vs.take DISTINCT_VALUE_LIMIT = vs := List.take_of_length_le h2
    cases vs with
    | nil => simp at h1
    | cons a t =>
        refine ⟨?_, rfl⟩
        simp only [enhancedPropLine, stringPropDescriptor, htake]
        rw [if_pos (by simp [optListTruthy])]
        rw [if_neg (by simp only [Option.getD_some]; omega)]
        rw [if_pos (by simp [optListTruthy])]
        simp

/-- C6, witness: with 11 = `DISTINCT_VALUE_LIMIT` + 1 distinct values the
rendered fragment is a single cleaned example and the stored enumeration is
shorter than the observed one. -/
theorem string_stats_distinct_limit_witness :
    ((["v0", "v1", "v2", "v3", "v4", "v5", "v6", "v7", "v8", "v9", "v10"] :
        List String).length = DISTINCT_VALUE_LIMIT + 1)
    ∧ (enhancedPropLine (stringPropDescriptor "p"
          ["v0", "v1", "v2", "v3", "v4", "v5", "v6", "v7", "v8", "v9", "v10"]) =
        some (propLine (stringPropDescriptor "p"
            ["v0", "v1", "v2", "v3", "v4", "v5", "v6", "v7", "v8", "v9", "v10"])
          ("Example: \""
            ++ clean_string_values
              ((["v0", "v1", "v2", "v3", "v4", "v5", "v6", "v7", "v8", "v9", "v10"] :
                  List String).headD "")
            ++ "\""))
      ∧ (stringPropDescriptor "p"
          ["v0", "v1", "v2", "v3", "v4", "v5", "v6", "v7", "v8", "v9", "v10"]).distinct_count =
        some (["v0", "v1", "v2", "v3", "v4", "v5", "v6", "v7", "v8", "v9", "v10"] :
            List String).length
      ∧ ((stringPropDescriptor "p"
            ["v0", "v1", "v2", "v3", "v4", "v5", "v6", "v7", "v8", "v9", "v10"]).values.getD
          []).length <
        (["v0", "v1", "v2", "v3", "v4", "v5", "v6", "v7", "v8", "v9", "v10"] :
            List String).length) :=
  ⟨by decide,
   (string_stats_distinct_limit "p"
      ["v0", "v1", "v2", "v3", "v4", "v5", "v6", "v7", "v8", "v9", "v10"]).1 (by decide)⟩

/-- C7, counterexample: a LIST property with `min_size` present, zero, and
hence not exceeding `LIST_LIMIT`, is nevertheless omitted from the enhanced
rendering — `not prop.get("min_size")` treats the present value `0` as
falsy. -/
theorem list_prop_min_size_zero_cex :
    (({ property := "p", type := "LIST", min_size := some 0, max_size := some 5 } :
          PropDesc).min_size = some 0
      ∧ 0 ≤ LIST_LIMIT)
    ∧ enhancedPropLine
        { property := "p", type := "LIST", min_size := some 0, max_size := some 5 } =
      none := by
  decide

/-- C7, amended: in enhanced mode a LIST property is omitted iff its
`min_size` is absent, zero (Python falsiness of `prop.get("min_size")`), or
strictly greater than `LIST_LIMIT`; with a present non-zero `min_size` not
exceeding the limit it is rendered with its min/max size bounds. -/
theorem list_prop_skip_iff (prop : PropDesc) (h : prop.type = "LIST") :
    (enhancedPropLine prop = none ↔
      (prop.min_size = none ∨ prop.min_size = some 0
        ∨ LIST_LIMIT < prop.min_size.getD 0))
    ∧ (∀ m M, prop.min_size = some m → prop.max_size = some M →
        0 < m → m ≤ LIST_LIMIT →
        enhancedPropLine prop =
          some (propLine prop
            ("Min Size: " ++ toString m ++ ", Max Size: " ++ toString M))) := by
  have h1 : ¬ (prop.type = "STRING" ∧ optListTruthy prop.values) := by
    simp [h]
  have h2 : prop.type ∉ numericPropTypes := by
    simp [h, numericPropTypes]
  constructor
  · rw [enhancedPropLine, if_neg h1, if_neg h2, if_pos h]
    rcases hms : prop.min_size with _ | m
    · simp [optNatTruthy]
    · rcases Nat.eq_zero_or_pos m with hm | hm
      · subst hm
        simp [optNatTruthy]
      · by_cases hlim : LIST_LIMIT < m
        · simp [optNatTruthy, hlim, Nat.pos_iff_ne_zero.mp hm]
        · simp [optNatTruthy, hlim, Nat.pos_iff_ne_zero.mp hm]
  · intro m M hm hM h0 hle
    rw [enhancedPropLine, if_neg h1, if_neg h2, if_pos h, if_neg ?_, hm, hM]
    · rfl
    · rw [hm]
      simp [optNatTruthy]
      omega

/-- C7, witness: a LIST property with `min_size = 2`, `max_size = 7` is
rendered with its size bounds. -/
theorem list_prop_skip_iff_witness :
    (({ property := "p", type := "LIST", min_size := some 2, max_size := some 7 } :
        PropDesc).type = "LIST")
    ∧ enhancedPropLine
        ({ property := "p", type := "LIST", min_size := some 2, max_size := some 7 } :
          PropDesc) =
      some (propLine
        ({ property := "p", type := "LIST", min_size := some 2, max_size := some 7 } :
          PropDesc)
        ("Min Size: " ++ toString 2 ++ ", Max Size: " ++ toString 7)) :=
  ⟨rfl,
   (list_prop_skip_iff
      { property := "p", type := "LIST", min_size := some 2, max_size := some 7 }
      rfl).2 2 7 rfl rfl (by decide) (by decide)⟩

/-- C10, witness: in `{"a": {}, "b": [null × 128]}` the empty-map entry is
kept while the oversized-list entry is dropped, and the only droppable entry
is indeed an oversized list. -/
theorem value_sanitize_dict_invariants_witness :
    (("a", JValue.dict []) ∈ [("a", JValue.dict [])]
      ∧ ("a", value_sanitize (JValue.dict [])) ∈ sanitizeEntries [("a", JValue.dict [])])
    ∧ (("b", JValue.list (List.replicate 128 JValue.null))
        ∈ [("b", JValue.list (List.replicate 128 JValue.null))]
      ∧ ∃ xs, JValue.list (List.replicate 128 JValue.null) = JValue.list xs
          ∧ LIST_LIMIT ≤ xs.length) :=
  ⟨⟨by simp,
    value_sanitize_dict_invariants.2.1 _ "a" [] (by simp)⟩,
   ⟨by simp,
    value_sanitize_dict_invariants.2.2.1
      [("b", JValue.list (List.replicate 128 JValue.null))] "b"
      (JValue.list (List.replicate 128 JValue.null)) (by simp)
      (by
        intro v'
        rw [sanitizeEntries_cons, if_neg (by simp [keepValue, LIST_LIMIT])]
        simp [sanitizeEntries])⟩⟩

theorem lookup_append (l1 l2 : List (String × String)) (k : String) :
    (l1 ++ l2).lookup k = ((l1.lookup k).orElse fun _ => l2.lookup k) := by
  induction l1 with
  | nil => simp [List.lookup]
  | cons a t ih =>
      obtain ⟨a1, a2⟩ := a
      simp only [List.cons_append, List.lookup]
      cases hb : k == a1 <;> simp [hb, ih]

theorem override_nil (p : Props) : override p [] = p :=
  funext fun k => by simp [override, List.lookup]

theorem override_append (p : Props) (A B : List (String × String)) :
    override p (A ++ B) = override (override p A) B := by
  funext k
  simp only [override, List.reverse_append, lookup_append]
  cases h : B.reverse.lookup k <;> simp [h, Option.orElse]

theorem override_dup (p : Props) (X : List (String × String)) :
    override p (X ++ X) = override p X := by
  funext k
  simp only [override, List.reverse_append, lookup_append]
  cases h : X.reverse.lookup k <;> simp [h, Option.orElse]

theorem evalChain_append (A B : List MergeOp) (c : Option Props) :
    evalChain (A ++ B) c = evalChain B (evalChain A c) := by
  induction A generalizing c with
  | nil => rfl
  | cons op A ih => simp [evalChain, ih]

theorem evalOp_isSome (op : MergeOp) (c : Option Props) :
    ∃ w, evalOp op c = some w := by
  cases op <;> cases c <;> simp [evalOp]

theorem evalChain_some (ops : List MergeOp) (v : Props) :
    evalChain ops (some v) = some (override v (chainKVs ops)) := by
  induction ops generalizing v with
  | nil => simp [evalChain, chainKVs, override_nil]
  | cons op ops ih =>
      cases op with
      | setProps init kvs =>
          simp [evalChain, evalOp, chainKVs, ih, override_append]
      | mergeCreate init kvs =>
          simp [evalChain, evalOp, chainKVs, ih]

theorem evalChain_idem (ops : List MergeOp) (c : Option Props) :
    evalChain ops (evalChain ops c) = evalChain ops c := by
  cases ops with
  | nil => rfl
  | cons op ops' =>
      obtain ⟨w, hw⟩ := evalOp_isSome op c
      have h1 : evalChain (op :: ops') c = some (override w (chainKVs ops')) := by
        simp [evalChain, hw, evalChain_some]
      rw [h1]
      cases op with
      | setProps init kvs =>
          have hw' : w = override (c.getD (propsOfList init)) kvs :=
            Option.some.inj (by rw [← hw]; simp [evalOp])
          subst hw'
          simp only [evalChain, evalOp, Option.getD_some, evalChain_some]
          simp only [← override_append]
          rw [show ((kvs ++ chainKVs ops') ++ kvs) ++ chainKVs ops'
              = (kvs ++ chainKVs ops') ++ (kvs ++ chainKVs ops') by simp,
            override_dup]
      | mergeCreate init kvs =>
          simp only [evalChain, evalOp, evalChain_some]
          rw [← override_append, override_dup]

theorem GraphState.eq_of_fields (a b : GraphState)
    (h1 : a.node = b.node) (h2 : a.extraLabels = b.extraLabels)
    (h3 : a.rel = b.rel) : a = b := by
  cases a
  cases b
  simp_all

theorem applyNodeRows_node (bel incl : Bool) (dkey : String × String)
    (rows : List NodeRow) (st : GraphState) (x : String × String) :
    (rows.foldl (fun s r => applyNodeRow bel incl dkey r s) st).node x =
      evalChain (rows.filterMap fun r =>
        if x = nodeKey bel r then some (nodeRowOp bel r) else none)
        (st.node x) := by
  induction rows generalizing st with
  | nil => rfl
  | cons r rows ih =>
      rw [List.foldl_cons, ih]
      by_cases h : x = nodeKey bel r
      · simp [applyNodeRow, h, evalChain]
      · simp [applyNodeRow, h]

theorem applyNodeRows_labels (bel incl : Bool) (dkey : String × String)
    (rows : List NodeRow) (st : GraphState) (x : String × String) (l : String) :
    (rows.foldl (fun s r => applyNodeRow bel incl dkey r s) st).extraLabels x l =
      ((labelsAddedOf bel rows x).contains l || st.extraLabels x l) := by
  induction rows generalizing st with
  | nil => simp [labelsAddedOf]
  | cons r rows ih =>
      rw [List.foldl_cons, ih]
      cases bel with
      | false => simp [applyNodeRow, labelsAddedOf]
      | true =>
          by_cases hx : x = nodeKey true r
          · by_cases hl : l = r.type <;>
              simp [applyNodeRow, labelsAddedOf, hx, hl, List.contains_cons,
                Bool.or_assoc]
          · simp [applyNodeRow, labelsAddedOf, hx]

theorem applyNodeRows_rel (bel incl : Bool) (dkey : String × String)
    (rows : List NodeRow) (st : GraphState)
    (rk : (String × String) × String × (String × String)) :
    (rows.foldl (fun s r => applyNodeRow bel incl dkey r s) st).rel rk =
      evalChain (mentionsOpsOf bel incl dkey rows rk) (st.rel rk) := by
  induction rows generalizing st with
  | nil => rfl
  | cons r rows ih =>
      rw [List.foldl_cons, ih]
      by_cases h : incl ∧ rk = (dkey, "MENTIONS", nodeKey bel r)
      · simp [applyNodeRow, mentionsOpsOf, h, evalChain]
      · simp [applyNodeRow, mentionsOpsOf, h]

theorem applyNodeImport_node (bel incl : Bool) (doc : DocRow)
    (rows : List NodeRow) (st : GraphState) (x : String × String) :
    (applyNodeImport bel incl doc rows st).node x =
      evalChain (nodeOpsOf bel incl doc rows x) (st.node x) := by
  rw [applyNodeImport, applyNodeRows_node, nodeOpsOf, evalChain_append]
  congr 1
  by_cases hi : incl
  · by_cases hx : x = docKey doc <;> simp [hi, hx, mergeDoc, evalChain]
  · simp [hi, evalChain]

theorem applyNodeImport_labels (bel incl : Bool) (doc : DocRow)
    (rows : List NodeRow) (st : GraphState) (x : String × String) (l : String) :
    (applyNodeImport bel incl doc rows st).extraLabels x l =
      ((labelsAddedOf bel rows x).contains l || st.extraLabels x l) := by
  rw [applyNodeImport, applyNodeRows_labels]
  by_cases hi : incl <;> simp [hi, mergeDoc]

theorem applyNodeImport_rel (bel incl : Bool) (doc : DocRow)
    (rows : List NodeRow) (st : GraphState)
    (rk : (String × String) × String × (String × String)) :
    (applyNodeImport bel incl doc rows st).rel rk =
      evalChain (mentionsOpsOf bel incl (docKey doc) rows rk) (st.rel rk) := by
  rw [applyNodeImport, applyNodeRows_rel]
  by_cases hi : incl <;> simp [hi, mergeDoc]

theorem applyRelRow_node (bel : Bool) (r : RelRow) (st : GraphState)
    (x : String × String) :
    (applyRelRow bel r st).node x =
      evalChain
        ((if x = (relEndpointKeys bel r).1
            then [MergeOp.mergeCreate [("id", r.source)] []] else [])
          ++ (if x = (relEndpointKeys bel r).2
              then [MergeOp.mergeCreate [("id", r.target)] []] else []))
        (st.node x) := by
  by_cases h1 : x = (relEndpointKeys bel r).1
  · subst h1
    by_cases h2 : (relEndpointKeys bel r).1 = (relEndpointKeys bel r).2
    · simp [applyRelRow, h2, evalChain]
    · simp [applyRelRow, h2, evalChain]
  · by_cases h2 : x = (relEndpointKeys bel r).2
    · subst h2
      simp [applyRelRow, h1, evalChain]
    · simp [applyRelRow, h1, h2, evalChain]

theorem applyRelRows_node (bel : Bool) (rows : List RelRow) (st : GraphState)
    (x : String × String) :
    (applyRelImport bel rows st).node x =
      evalChain (relNodeOpsOf bel rows x) (st.node x) := by
  induction rows generalizing st with
  | nil => rfl
  | cons r rows ih =>
      simp only [applyRelImport] at ih ⊢
      rw [List.foldl_cons, ih, applyRelRow_node]
      simp only [relNodeOpsOf, List.flatMap_cons, evalChain_append]

theorem applyRelRows_rel (bel : Bool) (rows : List RelRow) (st : GraphState)
    (rk : (String × String) × String × (String × String)) :
    (applyRelImport bel rows st).rel rk =
      evalChain (relRelOpsOf bel rows rk) (st.rel rk) := by
  induction rows generalizing st with
  | nil => rfl
  | cons r rows ih =>
      simp only [applyRelImport] at ih ⊢
      rw [List.foldl_cons, ih]
      by_cases h : rk = ((relEndpointKeys bel r).1, r.type, (relEndpointKeys bel r).2)
      · simp [applyRelRow, relRelOpsOf, h, evalChain]
      · simp [applyRelRow, relRelOpsOf, h]

theorem applyRelRows_labels (bel : Bool) (rows : List RelRow) (st : GraphState) :
    (applyRelImport bel rows st).extraLabels = st.extraLabels := by
  induction rows generalizing st with
  | nil => rfl
  | cons r rows ih =>
      simp only [applyRelImport] at ih ⊢
      rw [List.foldl_cons, ih]
      rfl

theorem applyNodeImport_idem (bel incl : Bool) (doc : DocRow)
    (rows : List NodeRow) (st : GraphState) :
    applyNodeImport bel incl doc rows (applyNodeImport bel incl doc rows st) =
      applyNodeImport bel incl doc rows st := by
  apply GraphState.eq_of_fields
  · funext x
    simp only [applyNodeImport_node]
    exact evalChain_idem _ _
  · funext x l
    simp only [applyNodeImport_labels]
    cases (labelsAddedOf bel rows x).contains l <;> simp
  · funext rk
    simp only [applyNodeImport_rel]
    exact evalChain_idem _ _

theorem applyRelImport_idem (bel : Bool) (rows : List RelRow) (st : GraphState) :
    applyRelImport bel rows (applyRelImport bel rows st) =
      applyRelImport bel rows st := by
  apply GraphState.eq_of_fields
  · funext x
    simp only [applyRelRows_node]
    exact evalChain_idem _ _
  · rw [applyRelRows_labels, applyRelRows_labels]
  · funext rk
    simp only [applyRelRows_rel]
    exact evalChain_idem _ _

set_option maxRecDepth 16384 in
/-- C8: for every combination of the boolean flags, the node and
relationship import query texts contain no `CREATE` clause and upsert only
through `MERGE` / `apoc.merge` (the sole `apoc.create.addLabels` call adds
labels, it creates nothing); and, under the modelled Cypher merge semantics,
re-running either import with the same rows leaves the graph state
unchanged — no duplicate nodes or relationships. -/
theorem import_queries_idempotent :
    (∀ b s : Bool,
      containsSub (_get_node_import_query b s) "CREATE" = false
        ∧ (containsSub (_get_node_import_query b s) "MERGE"
            || containsSub (_get_node_import_query b s) "apoc.merge.node") = true)
    ∧ (∀ b : Bool,
      containsSub (_get_rel_import_query b) "CREATE" = false
        ∧ (containsSub (_get_rel_import_query b) "MERGE"
            || containsSub (_get_rel_import_query b) "apoc.merge") = true)
    ∧ (∀ (b s : Bool) (doc : DocRow) (rows : List NodeRow) (st : GraphState),
      applyNodeImport b s doc rows (applyNodeImport b s doc rows st) =
        applyNodeImport b s doc rows st)
    ∧ (∀ (b : Bool) (rows : List RelRow) (st : GraphState),
      applyRelImport b rows (applyRelImport b rows st) = applyRelImport b rows st) := by
  refine ⟨fun b s => ?_, fun b => ?_,
    fun b s doc rows st => applyNodeImport_idem b s doc rows st,
    fun b rows st => applyRelImport_idem b rows st⟩
  · cases b <;> cases s <;> exact ⟨by decide, by decide⟩
  · cases b <;> exact ⟨by decide, by decide⟩

theorem popAssign_single (b : CypherAcc) (name : String)
    (h : b.return_clauses.length = 1) :
    ∃ b', popAssign b name = Except.ok b' ∧ b'.return_clauses = [] := by
  rcases hb : b.return_clauses with _ | ⟨r, rest⟩
  · rw [hb] at h
    simp at h
  · rcases rest with _ | ⟨r2, rest2⟩
    · apply Exists.intro { b with return_clauses := [], output_dict := dictAssign b.output_dict name ("\x7b" ++ r ++ "\x7d") }
      exact ⟨by simp [popAssign, hb], rfl⟩
    · rw [hb] at h
      simp at h

theorem exhaustStep_rc_empty (acc : CypherAcc) (prop : PropDesc)
    (hrc : acc.return_clauses = []) :
    (prop.type ∈ handledPropTypes
      ∧ ∃ acc', exhaustStep acc prop = Except.ok acc' ∧ acc'.return_clauses = [])
    ∨ (prop.type ∉ handledPropTypes ∧ exhaustStep acc prop = Except.error ()) := by
  by_cases h1 : prop.type = "STRING"
  · refine Or.inl ⟨by simp [handledPropTypes, h1], ?_⟩
    simp only [exhaustStep]
    rw [if_pos h1]
    exact popAssign_single _ _ (by simp [hrc])
  · by_cases h2 : prop.type ∈ numericPropTypes
    · refine Or.inl ⟨by simp [handledPropTypes, numericPropTypes] at h2 ⊢; tauto, ?_⟩
      simp only [exhaustStep]
      rw [if_neg h1, if_pos h2]
      exact popAssign_single _ _ (by simp [hrc])
    · by_cases h3 : prop.type = "LIST"
      · refine Or.inl ⟨by simp [handledPropTypes, h3], ?_⟩
        simp only [exhaustStep]
        rw [if_neg h1, if_neg h2, if_pos h3]
        exact popAssign_single _ _ (by simp [hrc])
      · by_cases h4 : prop.type ∈ (["BOOLEAN", "POINT", "DURATION"] : List String)
        · refine Or.inl ⟨by simp [handledPropTypes] at h4 ⊢; tauto, acc, ?_, hrc⟩
          simp only [exhaustStep]
          rw [if_neg h1, if_neg h2, if_neg h3, if_pos h4]
        · refine Or.inr ⟨?_, ?_⟩
          · simp [handledPropTypes, numericPropTypes] at h2 h4 ⊢
            tauto
          · simp only [exhaustStep]
            rw [if_neg h1, if_neg h2, if_neg h3, if_neg h4]
            simp [popAssign, hrc]

theorem sampledStep_rc_empty (index : List IndexEntry)
    (dv : String → String → List String) (lab : String)
    (acc : CypherAcc) (prop : PropDesc) (hrc : acc.return_clauses = []) :
    (prop.type ∈ handledPropTypes
      ∧ ∃ acc', sampledStep index dv lab acc prop = Except.ok acc'
          ∧ acc'.return_clauses = [])
    ∨ (prop.type ∉ handledPropTypes
      ∧ sampledStep index dv lab acc prop = Except.error ()) := by
  by_cases h1 : prop.type = "STRING"
  · refine Or.inl ⟨by simp [handledPropTypes, h1], ?_⟩
    simp only [sampledStep]
    rw [if_pos h1]
    split
    · split
      · exact popAssign_single _ _ (by simp [hrc])
      · exact popAssign_single _ _ (by simp [hrc])
    · exact popAssign_single _ _ (by simp [hrc])
  · by_cases h2 : prop.type ∈ numericPropTypes
    · refine Or.inl ⟨by simp [handledPropTypes, numericPropTypes] at h2 ⊢; tauto, ?_⟩
      simp only [sampledStep]
      rw [if_neg h1, if_pos h2]
      split
      · exact popAssign_single _ _ (by simp [hrc])
      · exact popAssign_single _ _ (by simp [hrc])
    · by_cases h3 : prop.type = "LIST"
      · refine Or.inl ⟨by simp [handledPropTypes, h3], ?_⟩
        simp only [sampledStep]
        rw [if_neg h1, if_neg h2, if_pos h3]
        exact popAssign_single _ _ (by simp [hrc])
      · by_cases h4 : prop.type ∈ (["BOOLEAN", "POINT", "DURATION"] : List String)
        · refine Or.inl ⟨by simp [handledPropTypes] at h4 ⊢; tauto, acc, ?_, hrc⟩
          simp only [sampledStep]
          rw [if_neg h1, if_neg h2, if_neg h3, if_pos h4]
        · refine Or.inr ⟨?_, ?_⟩
          · simp [handledPropTypes, numericPropTypes] at h2 h4 ⊢
            tauto
          · simp only [sampledStep]
            rw [if_neg h1, if_neg h2, if_neg h3, if_neg h4]
            simp [popAssign, hrc]

theorem exhaust_fold_error (props : List PropDesc) (acc : CypherAcc)
    (hrc : acc.return_clauses = [])
    (h : ∃ p ∈ props, p.type ∉ handledPropTypes) :
    props.foldlM exhaustStep acc = Except.error () := by
  induction props generalizing acc with
  | nil => simp at h
  | cons p ps ih =>
      rw [List.foldlM_cons]
      rcases exhaustStep_rc_empty acc p hrc with ⟨hmem, acc', hstep, hrc'⟩ | ⟨_, hstep⟩
      · rw [hstep]
        rcases h with ⟨q, hq, hqt⟩
        rcases List.mem_cons.mp hq with rfl | hq'
        · exact absurd hmem hqt
        · simpa using ih acc' hrc' ⟨q, hq', hqt⟩
      · rw [hstep]
        rfl

theorem sampled_fold_error (index : List IndexEntry)
    (dv : String → String → List String) (lab : String)
    (props : List PropDesc) (acc : CypherAcc) (hrc : acc.return_clauses = [])
    (h : ∃ p ∈ props, p.type ∉ handledPropTypes) :
    props.foldlM (sampledStep index dv lab) acc = Except.error () := by
  induction props generalizing acc with
  | nil => simp at h
  | cons p ps ih =>
      rw [List.foldlM_cons]
      rcases sampledStep_rc_empty index dv lab acc p hrc with
        ⟨hmem, acc', hstep, hrc'⟩ | ⟨_, hstep⟩
      · rw [hstep]
        rcases h with ⟨q, hq, hqt⟩
        rcases List.mem_cons.mp hq with rfl | hq'
        · exact absurd hmem hqt
        · simpa using ih acc' hrc' ⟨q, hq', hqt⟩
      · rw [hstep]
        rfl

/-- C9: in `_enhanced_schema_cypher` each property's return fragment is
taken by a destructive `pop` from the shared `return_clauses` accumulator;
for a property whose declared type is outside the handled set the pop runs
without a freshly appended fragment (both step functions reduce to a bare
`popAssign` on the untouched accumulator), and since every handled property
consumes its own fragment the accumulator is empty there, so the call fails
with an `IndexError` instead of skipping that property. -/
theorem enhanced_schema_pop_unhandled :
    (∀ (acc : CypherAcc) (name t : String), t ∉ handledPropTypes →
      exhaustStep acc { property := name, type := t } = popAssign acc name)
    ∧ (∀ (index : List IndexEntry) (dv : String → String → List String)
        (lab : String) (acc : CypherAcc) (name t : String), t ∉ handledPropTypes →
      sampledStep index dv lab acc { property := name, type := t } = popAssign acc name)
    ∧ (∀ (index : List IndexEntry) (dv : String → String → List String)
        (lab : String) (props : List PropDesc) (ex isrel : Bool),
        (∃ p ∈ props, p.type ∉ handledPropTypes) →
      _enhanced_schema_cypher index dv lab props ex isrel = Except.error ()) := by
  refine ⟨fun acc name t h => ?_, fun index dv lab acc name t h => ?_,
    fun index dv lab props ex isrel h => ?_⟩
  · simp only [handledPropTypes, List.mem_cons, List.not_mem_nil, or_false, not_or] at h
    obtain ⟨h1, h2, h3, h4, h5, h6, h7, h8, h9, h10⟩ := h
    simp [exhaustStep, numericPropTypes, h1, h2, h3, h4, h5, h6, h7, h8, h9, h10]
  · simp only [handledPropTypes, List.mem_cons, List.not_mem_nil, or_false, not_or] at h
    obtain ⟨h1, h2, h3, h4, h5, h6, h7, h8, h9, h10⟩ := h
    simp [sampledStep, numericPropTypes, h1, h2, h3, h4, h5, h6, h7, h8, h9, h10]
  · cases ex with
    | true =>
        rw [_enhanced_schema_cypher]
        simp only [if_pos rfl]
        rw [exhaust_fold_error props
          { with_clauses := [], return_clauses := [], output_dict := [] } rfl h]
        rfl
    | false =>
        rw [_enhanced_schema_cypher]
        simp only [Bool.false_eq_true, if_neg, ite_false]
        rw [sampled_fold_error index dv lab props
          { with_clauses := [], return_clauses := [], output_dict := [] } rfl h]
        rfl

/-- C9, witness: a property of the unhandled type "ZONED DATETIME" makes the
step a bare pop on the untouched accumulator, and a property list containing
it makes the whole generation fail with an `IndexError`. -/
theorem enhanced_schema_pop_unhandled_witness :
    ("ZONED DATETIME" ∉ handledPropTypes)
    ∧ exhaustStep { with_clauses := [], return_clauses := [], output_dict := [] }
        { property := "b", type := "ZONED DATETIME" } =
      popAssign { with_clauses := [], return_clauses := [], output_dict := [] } "b"
    ∧ _enhanced_schema_cypher [] (fun _ _ => []) "A"
        [{ property := "a", type := "STRING" },
         { property := "b", type := "ZONED DATETIME" }] true false =
      Except.error () :=
  ⟨by decide,
   enhanced_schema_pop_unhandled.1 _ "b" "ZONED DATETIME" (by decide),
   enhanced_schema_pop_unhandled.2.2 [] (fun _ _ => []) "A"
     [{ property := "a", type := "STRING" },
      { property := "b", type := "ZONED DATETIME" }] true false
     ⟨{ property := "b", type := "ZONED DATETIME" }, by simp, by decide⟩⟩

/-- C4, counterexample: the claim "any failure raised by a per-label
statistics query is caught for that label alone and never aborts the
refresh" fails — only `CypherTypeError` is caught, and a query raising an
exception of any other class aborts the enhanced refresh. -/
theorem refresh_any_failure_cex :
    refreshEnhancedLoop (fun _ => QueryResult.otherError)
      [("A", [{ property := "p", type := "STRING" }])] = Except.error () := rfl

/-- C4, amended: a `CypherTypeError` raised by a per-label/per-type
statistics query is caught for that label or type alone — the label's
descriptors stay unpopulated while every other label is processed normally
and the refresh completes; only exceptions of other classes abort it. -/
theorem refresh_cypher_type_error_local (run : String → QueryResult)
    (labels : List (String × List PropDesc))
    (h : ∀ lp ∈ labels, run lp.1 ≠ QueryResult.otherError) :
    refreshEnhancedLoop run labels =
      Except.ok (labels.map fun lp =>
        match run lp.1 with
        | QueryResult.ok info => (lp.1, updateProps lp.2 info)
        | _ => lp) := by
  induction labels with
  | nil => rfl
  | cons lp rest ih =>
      obtain ⟨label, props⟩ := lp
      have hrest := ih fun q hq => h q (List.mem_cons_of_mem _ hq)
      cases hrun : run label with
      | ok info => simp [refreshEnhancedLoop, hrun, hrest, Except.map]
      | cypherTypeError => simp [refreshEnhancedLoop, hrun, hrest, Except.map]
      | otherError => exact absurd hrun (h _ (List.mem_cons_self _ _))

/-- C4, witness: with label "A" raising `CypherTypeError` and label "B"
succeeding, the refresh completes with "A" unpopulated and "B" updated. -/
theorem refresh_cypher_type_error_local_witness :
    (∀ lp ∈ ([("A", [{ property := "p", type := "INTEGER" }]),
              ("B", [{ property := "q", type := "INTEGER" }])] :
        List (String × List PropDesc)), runW lp.1 ≠ QueryResult.otherError)
    ∧ refreshEnhancedLoop runW
        [("A", [{ property := "p", type := "INTEGER" }]),
         ("B", [{ property := "q", type := "INTEGER" }])] =
      Except.ok (([("A", [{ property := "p", type := "INTEGER" }]),
                   ("B", [{ property := "q", type := "INTEGER" }])] :
          List (String × List PropDesc)).map fun lp =>
        match runW lp.1 with
        | QueryResult.ok info => (lp.1, updateProps lp.2 info)
        | _ => lp) :=
  ⟨by decide,
   refresh_cypher_type_error_local runW
     [("A", [{ property := "p", type := "INTEGER" }]),
      ("B", [{ property := "q", type := "INTEGER" }])] (by decide)⟩

end NeoGraph
